import Mathlib

/-!
Verification development for the retrieval-and-synthesis pipeline of
`backend/retrieval_handler.py`.

The Python module is shallowly embedded:

* Python/JSON dynamic values are modelled by the inductive type `JVal`
  (numbers are modelled as integers: every numeric literal appearing in the
  module and in the concrete inputs below is an integer).
* `json.loads` is modelled by the executable parser `jparse` (whole-input
  parse, standard JSON grammar over `JVal`; duplicate object keys keep the
  first position with the last value, as Python `dict` does), and
  `json.dumps` by `jdumps` (Python's default separators `", "` / `": "`).
* `re.search(r'\x7b.*\x7d', text, re.DOTALL)` is modelled by `jsonCandidate`:
  the regex is greedy, so a successful match runs from the first opening
  brace to the last closing brace of the whole text.
* The `re.findall` calls for the six dialogue patterns are modelled by
  dedicated scanners (`findallQuoted`, `findallHost`, ...), which implement
  the leftmost, non-overlapping match semantics of those concrete patterns.
* `async` functions are modelled as pure functions taking the outcome of
  each external service call (embedding, vector query, reranker scoring,
  generation) as an explicit argument; an exception raised by a service is
  an explicit constructor of the outcome type.  Exceptions that the Python
  code itself may raise are modelled with `Except`.
-/

/-- A Python/JSON value as produced by `json.loads` (numbers as integers). -/
inductive JVal where
  | null
  | bool (b : Bool)
  | num (n : Int)
  | str (s : String)
  | arr (elems : List JVal)
  | obj (fields : List (String × JVal))

mutual

/-- Decidable equality on `JVal` (written by hand: `JVal` is a nested
inductive, so `deriving DecidableEq` is not available). -/
def jvalDecEq : (a b : JVal) → Decidable (a = b)
  | .null, .null => isTrue rfl
  | .bool a, .bool b =>
    match decEq a b with
    | isTrue h => isTrue (by rw [h])
    | isFalse h => isFalse (fun e => by injection e with h1; exact h h1)
  | .num a, .num b =>
    match decEq a b with
    | isTrue h => isTrue (by rw [h])
    | isFalse h => isFalse (fun e => by injection e with h1; exact h h1)
  | .str a, .str b =>
    match decEq a b with
    | isTrue h => isTrue (by rw [h])
    | isFalse h => isFalse (fun e => by injection e with h1; exact h h1)
  | .arr xs, .arr ys =>
    match jvalListDecEq xs ys with
    | isTrue h => isTrue (by rw [h])
    | isFalse h => isFalse (fun e => by injection e with h1; exact h h1)
  | .obj xs, .obj ys =>
    match jvalFieldsDecEq xs ys with
    | isTrue h => isTrue (by rw [h])
    | isFalse h => isFalse (fun e => by injection e with h1; exact h h1)
  | .null, .bool _ => isFalse (fun h => JVal.noConfusion h)
  | .null, .num _ => isFalse (fun h => JVal.noConfusion h)
  | .null, .str _ => isFalse (fun h => JVal.noConfusion h)
  | .null, .arr _ => isFalse (fun h => JVal.noConfusion h)
  | .null, .obj _ => isFalse (fun h => JVal.noConfusion h)
  | .bool _, .null => isFalse (fun h => JVal.noConfusion h)
  | .bool _, .num _ => isFalse (fun h => JVal.noConfusion h)
  | .bool _, .str _ => isFalse (fun h => JVal.noConfusion h)
  | .bool _, .arr _ => isFalse (fun h => JVal.noConfusion h)
  | .bool _, .obj _ => isFalse (fun h => JVal.noConfusion h)
  | .num _, .null => isFalse (fun h => JVal.noConfusion h)
  | .num _, .bool _ => isFalse (fun h => JVal.noConfusion h)
  | .num _, .str _ => isFalse (fun h => JVal.noConfusion h)
  | .num _, .arr _ => isFalse (fun h => JVal.noConfusion h)
  | .num _, .obj _ => isFalse (fun h => JVal.noConfusion h)
  | .str _, .null => isFalse (fun h => JVal.noConfusion h)
  | .str _, .bool _ => isFalse (fun h => JVal.noConfusion h)
  | .str _, .num _ => isFalse (fun h => JVal.noConfusion h)
  | .str _, .arr _ => isFalse (fun h => JVal.noConfusion h)
  | .str _, .obj _ => isFalse (fun h => JVal.noConfusion h)
  | .arr _, .null => isFalse (fun h => JVal.noConfusion h)
  | .arr _, .bool _ => isFalse (fun h => JVal.noConfusion h)
  | .arr _, .num _ => isFalse (fun h => JVal.noConfusion h)
  | .arr _, .str _ => isFalse (fun h => JVal.noConfusion h)
  | .arr _, .obj _ => isFalse (fun h => JVal.noConfusion h)
  | .obj _, .null => isFalse (fun h => JVal.noConfusion h)
  | .obj _, .bool _ => isFalse (fun h => JVal.noConfusion h)
  | .obj _, .num _ => isFalse (fun h => JVal.noConfusion h)
  | .obj _, .str _ => isFalse (fun h => JVal.noConfusion h)
  | .obj _, .arr _ => isFalse (fun h => JVal.noConfusion h)

/-- Decidable equality on lists of `JVal`. -/
def jvalListDecEq : (a b : List JVal) → Decidable (a = b)
  | [], [] => isTrue rfl
  | [], _ :: _ => isFalse (fun h => List.noConfusion h)
  | _ :: _, [] => isFalse (fun h => List.noConfusion h)
  | x :: xs, y :: ys =>
    match jvalDecEq x y with
    | isFalse h => isFalse (fun e => by injection e with h1 _; exact h h1)
    | isTrue h1 =>
      match jvalListDecEq xs ys with
      | isTrue h2 => isTrue (by rw [h1, h2])
      | isFalse h => isFalse (fun e => by injection e with _ h2; exact h h2)

/-- Decidable equality on association lists of `JVal`. -/
def jvalFieldsDecEq : (a b : List (String × JVal)) → Decidable (a = b)
  | [], [] => isTrue rfl
  | [], _ :: _ => isFalse (fun h => List.noConfusion h)
  | _ :: _, [] => isFalse (fun h => List.noConfusion h)
  | (k1, v1) :: xs, (k2, v2) :: ys =>
    match decEq k1 k2 with
    | isFalse h => isFalse (fun e => by
        injection e with h1 _
        injection h1 with hk _
        exact h hk)
    | isTrue hk =>
      match jvalDecEq v1 v2 with
      | isFalse h => isFalse (fun e => by
          injection e with h1 _
          injection h1 with _ hv
          exact h hv)
      | isTrue hv =>
        match jvalFieldsDecEq xs ys with
        | isTrue ht => isTrue (by rw [hk, hv, ht])
        | isFalse h => isFalse (fun e => by injection e with _ h2; exact h h2)

end

instance : DecidableEq JVal := jvalDecEq

/-- First value bound to `key` in an association list.  Objects produced by
`jparse` and by the embedded code have unique keys, so this is the Python
`dict` lookup. -/
def jlookup : List (String × JVal) → String → Option JVal
  | [], _ => none
  | (k, v) :: rest, key => if k = key then some v else jlookup rest key

/-- Python `key in dict`. -/
def jhasKey (kvs : List (String × JVal)) (key : String) : Bool :=
  (jlookup kvs key).isSome

/-- Python `dict[key] = v` for a key that is already present: the value is
replaced in place, the position of the key is kept. -/
def jupdate : List (String × JVal) → String → JVal → List (String × JVal)
  | [], _, _ => []
  | (k, w) :: rest, key, v =>
    if k = key then (k, v) :: rest else (k, w) :: jupdate rest key v

/-- Python `dict[key] = v` in general: replaces in place if present,
otherwise appends (insertion order). -/
def jinsert (kvs : List (String × JVal)) (key : String) (v : JVal) :
    List (String × JVal) :=
  if jhasKey kvs key then jupdate kvs key v else kvs ++ [(key, v)]

/-- Python truthiness of a `JVal` (`None`, `False`, `0`, `""`, `[]`, and
an empty dict are falsy). -/
def jtruthy : JVal → Bool
  | .null => false
  | .bool b => b
  | .num n => n ≠ 0
  | .str s => s ≠ ""
  | .arr l => ¬ l.isEmpty
  | .obj kvs => ¬ kvs.isEmpty

/-- JSON insignificant whitespace. -/
def jsonWs (c : Char) : Bool := c = ' ' ∨ c = '\t' ∨ c = '\n' ∨ c = '\r'

/-- Skip JSON whitespace. -/
def skipJsonWs (cs : List Char) : List Char := cs.dropWhile jsonWs

/-- Value of one hexadecimal digit. -/
def hexDigitVal (c : Char) : Option Nat :=
  if '0' ≤ c ∧ c ≤ '9' then some (c.toNat - '0'.toNat)
  else if 'a' ≤ c ∧ c ≤ 'f' then some (c.toNat - 'a'.toNat + 10)
  else if 'A' ≤ c ∧ c ≤ 'F' then some (c.toNat - 'A'.toNat + 10)
  else none

/-- Four hexadecimal digits, as in a `\uXXXX` escape. -/
def parseHex4 : List Char → Option (Nat × List Char)
  | c1 :: c2 :: c3 :: c4 :: rest =>
    match hexDigitVal c1, hexDigitVal c2, hexDigitVal c3, hexDigitVal c4 with
    | some a, some b, some c, some d => some (((a * 16 + b) * 16 + c) * 16 + d, rest)
    | _, _, _, _ => none
  | _ => none

/-- Body of a JSON string after the opening quote: returns the decoded
characters and the input after the closing quote.  Unescaped control
characters are rejected, as in Python's strict `json.loads`. -/
def parseStringBody : Nat → List Char → Option (List Char × List Char)
  | 0, _ => none
  | _, [] => none
  | fuel + 1, c :: rest =>
    if c = '"' then some ([], rest)
    else if c = '\\' then
      match rest with
      | [] => none
      | e :: rest2 =>
        let cont := fun (d : Char) (r : List Char) =>
          (parseStringBody fuel r).map (fun p => (d :: p.1, p.2))
        if e = '"' then cont '"' rest2
        else if e = '\\' then cont '\\' rest2
        else if e = '/' then cont '/' rest2
        else if e = 'n' then cont '\n' rest2
        else if e = 't' then cont '\t' rest2
        else if e = 'r' then cont '\r' rest2
        else if e = 'b' then cont (Char.ofNat 8) rest2
        else if e = 'f' then cont (Char.ofNat 12) rest2
        else if e = 'u' then
          match parseHex4 rest2 with
          | some (n, r) => cont (Char.ofNat n) r
          | none => none
        else none
    else if c.toNat < 32 then none
    else (parseStringBody fuel rest).map (fun p => (c :: p.1, p.2))

/-- Maximal run of decimal digits. -/
def takeDigits (cs : List Char) : List Char × List Char :=
  (cs.takeWhile Char.isDigit, cs.dropWhile Char.isDigit)

/-- Digits to a natural number. -/
def digitsToNat (ds : List Char) : Nat :=
  ds.foldl (fun acc c => acc * 10 + (c.toNat - '0'.toNat)) 0

/-- A JSON integer literal (optional sign, no leading zeros; a following
`.`, `e` or `E` — a float — is not modelled and is rejected). -/
def parseIntLit (cs : List Char) : Option (Int × List Char) :=
  let core := fun (cs2 : List Char) (neg : Bool) =>
    match takeDigits cs2 with
    | ([], _) => none
    | (d :: ds, rest) =>
      if d = '0' ∧ ds ≠ [] then none
      else
        match rest with
        | r :: _ => if r = '.' ∨ r = 'e' ∨ r = 'E' then none else
            some (if neg then -(digitsToNat (d :: ds) : Int) else (digitsToNat (d :: ds) : Int), rest)
        | [] => some (if neg then -(digitsToNat (d :: ds) : Int) else (digitsToNat (d :: ds) : Int), rest)
  match cs with
  | '-' :: rest => core rest true
  | _ => core cs false

mutual

/-- One JSON value (fuel-bounded recursive descent). -/
def parseVal : Nat → List Char → Option (JVal × List Char)
  | 0, _ => none
  | fuel + 1, cs =>
    match skipJsonWs cs with
    | [] => none
    | c :: rest =>
      if c = '\x7b' then
        parseObjBody fuel rest []
      else if c = '[' then
        parseArrBody fuel rest
      else if c = '"' then
        (parseStringBody (rest.length + 1) rest).map (fun p => (.str (String.mk p.1), p.2))
      else if c = 't' then
        match rest with
        | 'r' :: 'u' :: 'e' :: r => some (.bool true, r)
        | _ => none
      else if c = 'f' then
        match rest with
        | 'a' :: 'l' :: 's' :: 'e' :: r => some (.bool false, r)
        | _ => none
      else if c = 'n' then
        match rest with
        | 'u' :: 'l' :: 'l' :: r => some (.null, r)
        | _ => none
      else if c = '-' ∨ c.isDigit then
        (parseIntLit (c :: rest)).map (fun p => (.num p.1, p.2))
      else none

/-- Members of a JSON object after the opening brace (accumulating with
Python `dict` insertion semantics for duplicate keys). -/
def parseObjBody : Nat → List Char → List (String × JVal) → Option (JVal × List Char)
  | 0, _, _ => none
  | fuel + 1, cs, acc =>
    match skipJsonWs cs with
    | [] => none
    | c :: rest =>
      if c = '\x7d' ∧ acc = [] then some (.obj [], rest)
      else
        if c = '"' then
          match parseStringBody (rest.length + 1) rest with
          | none => none
          | some (key, r1) =>
            match skipJsonWs r1 with
            | ':' :: r2 =>
              match parseVal fuel r2 with
              | none => none
              | some (v, r3) =>
                let acc2 := jinsert acc (String.mk key) v
                match skipJsonWs r3 with
                | ',' :: r4 => parseObjBody fuel r4 acc2
                | '\x7d' :: r4 => some (.obj acc2, r4)
                | _ => none
            | _ => none
        else none

/-- Elements of a JSON array after the opening bracket. -/
def parseArrBody : Nat → List Char → Option (JVal × List Char)
  | 0, _ => none
  | fuel + 1, cs =>
    match skipJsonWs cs with
    | ']' :: rest => some (.arr [], rest)
    | _ => parseArrElems fuel cs []

/-- Elements of a non-empty JSON array. -/
def parseArrElems : Nat → List Char → List JVal → Option (JVal × List Char)
  | 0, _, _ => none
  | fuel + 1, cs, acc =>
    match parseVal fuel cs with
    | none => none
    | some (v, r1) =>
      match skipJsonWs r1 with
      | ',' :: r2 => parseArrElems fuel r2 (acc ++ [v])
      | ']' :: r2 => some (.arr (acc ++ [v]), r2)
      | _ => none

end

/-- Model of `json.loads`: parse the whole input as one JSON value.
Returns `none` where Python raises `json.JSONDecodeError`. -/
def jparse (cs : List Char) : Option JVal :=
  match parseVal (2 * cs.length + 4) cs with
  | some (v, rest) => if skipJsonWs rest = [] then some v else none
  | none => none

/-- Render a `Nat` below 65536 as four lowercase hexadecimal digits. -/
def hex4 (n : Nat) : String :=
  let dig := fun (k : Nat) => (Nat.digitChar (k % 16))
  String.mk [dig (n / 4096), dig (n / 256), dig (n / 16), dig n]

/-- Escape one character as Python `json.dumps` (default `ensure_ascii`)
does. -/
def escChar (c : Char) : String :=
  if c = '"' then "\\\""
  else if c = '\\' then "\\\\"
  else if c = '\n' then "\\n"
  else if c = '\t' then "\\t"
  else if c = '\r' then "\\r"
  else if c.toNat = 8 then "\\b"
  else if c.toNat = 12 then "\\f"
  else if c.toNat < 32 ∨ c.toNat > 126 then "\\u" ++ hex4 c.toNat
  else String.singleton c

/-- Serialise a string with quotes and escapes, as `json.dumps` does. -/
def jdumpsStr (s : String) : String :=
  "\"" ++ String.join (s.data.map escChar) ++ "\""

mutual

/-- Model of `json.dumps` with Python's default separators. -/
def jdumps : JVal → String
  | .null => "null"
  | .bool true => "true"
  | .bool false => "false"
  | .num n => toString n
  | .str s => jdumpsStr s
  | .arr xs => "[" ++ jdumpsElems xs ++ "]"
  | .obj kvs => "\x7b" ++ jdumpsMembers kvs ++ "\x7d"

/-- Array elements joined by `", "`. -/
def jdumpsElems : List JVal → String
  | [] => ""
  | [x] => jdumps x
  | x :: rest => jdumps x ++ ", " ++ jdumpsElems rest

/-- Object members joined by `", "`, each rendered `key: value`. -/
def jdumpsMembers : List (String × JVal) → String
  | [] => ""
  | [(k, v)] => jdumpsStr k ++ ": " ++ jdumps v
  | (k, v) :: rest => jdumpsStr k ++ ": " ++ jdumps v ++ ", " ++ jdumpsMembers rest

end

example : jparse "\x7b\"a\": [1, \"x\"]\x7d".data =
    some (.obj [("a", .arr [.num 1, .str "x"])]) := by rfl

example : jparse "\x7b\"a\": 1\x7d oops".data = none := by rfl

example : jdumps (.obj [("a", .arr [.num 1, .str "x"])]) = "\x7b\"a\": [1, \"x\"]\x7d" := by rfl

/-- Characters treated as whitespace by Python's `str.strip` and by the
regex class `\s` (ASCII range). -/
def pyIsSpace (c : Char) : Bool :=
  c = ' ' ∨ c = '\t' ∨ c = '\n' ∨ c = '\r' ∨ c = Char.ofNat 11 ∨ c = Char.ofNat 12

/-- Python `str.strip()`. -/
def pyStrip (s : String) : String :=
  String.mk (((s.data.dropWhile pyIsSpace).reverse.dropWhile pyIsSpace).reverse)

/-- Model of `re.search(r'\x7b.*\x7d', text, re.DOTALL)` as used by both
extraction functions (`retrieval_handler.py:131` and `:203`): the pattern is
greedy, so the matched substring runs from the first opening brace of the
text to the last closing brace (provided the latter comes after the
former); otherwise there is no match. -/
def jsonCandidate (cs : List Char) : Option (List Char) :=
  match cs.dropWhile (· ≠ '\x7b') with
  | [] => none
  | b :: rest =>
    let tail := (rest.reverse.dropWhile (· ≠ '\x7d')).reverse
    if tail.isEmpty then none else some (b :: tail)

/-- Generic `re.findall` driver: try a single-match step at every position,
left to right; on a match, emit the captured group and resume after the
match (non-overlapping), otherwise advance one character. -/
def scanAll (step : List Char → Option (List Char × List Char)) :
    Nat → List Char → List String
  | 0, _ => []
  | _, [] => []
  | fuel + 1, c :: rest =>
    match step (c :: rest) with
    | some (cap, after) => String.mk cap :: scanAll step fuel after
    | none => scanAll step fuel rest

/-- The class `[:\s]`. -/
def colonOrSpace (c : Char) : Bool := c = ':' ∨ pyIsSpace c

/-- Matcher for a regex suffix of the form `cls+([^\n]+)` (or `cls*` when
`minOne` is false): the class run is greedy, then the capture takes at
least one non-newline character, with backtracking into the run when the
text ends inside it. -/
def starPlusCapture (minOne : Bool) (cls : Char → Bool) (after : List Char) :
    Option (List Char × List Char) :=
  let run := after.takeWhile cls
  if minOne ∧ run.isEmpty then none
  else
    match after.drop run.length with
    | r :: rest0 =>
      let cap := (r :: rest0).takeWhile (· ≠ '\n')
      some (cap, (r :: rest0).drop cap.length)
    | [] =>
      match run.reverse.findIdx? (fun c => c ≠ '\n') with
      | none => none
      | some j =>
        let k := run.length - 1 - j
        if minOne ∧ k = 0 then none
        else
          let cap := (run.drop k).takeWhile (· ≠ '\n')
          some (cap, (run.drop k).drop cap.length)

/-- One match of `"([^"]+)"` at the head of the input. -/
def tryQuoted (cs : List Char) : Option (List Char × List Char) :=
  match cs with
  | '"' :: rest =>
    let run := rest.takeWhile (· ≠ '"')
    if run.isEmpty then none
    else
      match rest.drop run.length with
      | '"' :: tail => some (run, tail)
      | _ => none
  | _ => none

/-- Case-insensitive character comparison (for `re.IGNORECASE`). -/
def lowerEq (c d : Char) : Bool := c.toLower = d

/-- One match of `Host[:\s]+([^\n]+)` (ignoring case) at the head. -/
def tryHost (cs : List Char) : Option (List Char × List Char) :=
  match cs with
  | c1 :: c2 :: c3 :: c4 :: rest =>
    if lowerEq c1 'h' ∧ lowerEq c2 'o' ∧ lowerEq c3 's' ∧ lowerEq c4 't' then
      starPlusCapture true colonOrSpace rest
    else none
  | _ => none

/-- One match of `Analyst[:\s]+([^\n]+)` (ignoring case) at the head. -/
def tryAnalyst (cs : List Char) : Option (List Char × List Char) :=
  match cs with
  | c1 :: c2 :: c3 :: c4 :: c5 :: c6 :: c7 :: rest =>
    if lowerEq c1 'a' ∧ lowerEq c2 'n' ∧ lowerEq c3 'a' ∧ lowerEq c4 'l' ∧
        lowerEq c5 'y' ∧ lowerEq c6 's' ∧ lowerEq c7 't' then
      starPlusCapture true colonOrSpace rest
    else none
  | _ => none

/-- One match of `•\s*([^\n]+)` at the head. -/
def tryBullet (cs : List Char) : Option (List Char × List Char) :=
  match cs with
  | '•' :: rest => starPlusCapture false pyIsSpace rest
  | _ => none

/-- One match of `\d+\.\s*([^\n]+)` at the head. -/
def tryNumbered (cs : List Char) : Option (List Char × List Char) :=
  match cs with
  | c :: _ =>
    if c.isDigit then
      let ds := cs.takeWhile Char.isDigit
      match cs.drop ds.length with
      | '.' :: rest => starPlusCapture false pyIsSpace rest
      | _ => none
    else none
  | [] => none

/-- One match of `-\s*([^\n]+)` at the head. -/
def tryDashed (cs : List Char) : Option (List Char × List Char) :=
  match cs with
  | '-' :: rest => starPlusCapture false pyIsSpace rest
  | _ => none

/-- The `re.findall` calls of `retrieval_handler.py:256-267`, one per
dialogue pattern, in the priority order of the source list. -/
def findallQuoted (cs : List Char) : List String := scanAll tryQuoted cs.length cs

/-- Findall for the `Host:` pattern. -/
def findallHost (cs : List Char) : List String := scanAll tryHost cs.length cs

/-- Findall for the `Analyst:` pattern. -/
def findallAnalyst (cs : List Char) : List String := scanAll tryAnalyst cs.length cs

/-- Findall for the bullet pattern. -/
def findallBullet (cs : List Char) : List String := scanAll tryBullet cs.length cs

/-- Findall for the numbered-line pattern. -/
def findallNumbered (cs : List Char) : List String := scanAll tryNumbered cs.length cs

/-- Findall for the dashed-line pattern. -/
def findallDashed (cs : List Char) : List String := scanAll tryDashed cs.length cs

/-- The cleaning step of `retrieval_handler.py:270`:
`[match.strip() for match in matches if len(match.strip()) > 10]`. -/
def cleanedMatches (ms : List String) : List String :=
  (ms.map pyStrip).filter (fun m => 10 < m.length)

/-- The pattern loop of `retrieval_handler.py:265-273`: the first pattern
(in priority order) whose cleaned matches number at least 4 wins; a pattern
with matches but fewer than 4 cleaned ones falls through to the next. -/
def firstCleaned (cs : List Char) : Option (List String) :=
  let c1 := cleanedMatches (findallQuoted cs)
  if 4 ≤ c1.length then some c1 else
  let c2 := cleanedMatches (findallHost cs)
  if 4 ≤ c2.length then some c2 else
  let c3 := cleanedMatches (findallAnalyst cs)
  if 4 ≤ c3.length then some c3 else
  let c4 := cleanedMatches (findallBullet cs)
  if 4 ≤ c4.length then some c4 else
  let c5 := cleanedMatches (findallNumbered cs)
  if 4 ≤ c5.length then some c5 else
  let c6 := cleanedMatches (findallDashed cs)
  if 4 ≤ c6.length then some c6 else
  none

/-- The post-processing of `retrieval_handler.py:272,275-280`: keep at most
12 extracted lines and drop the last one if their number is odd. -/
def capTrim (cleaned : List String) : List String :=
  let extracted := cleaned.take 12
  if extracted.length % 2 ≠ 0 then extracted.dropLast else extracted

/-- Fallback 1 of `extract_podcast_conversation_from_response`
(`retrieval_handler.py:252-280`): plain-text dialogue extraction. -/
def textPatternTier (cs : List Char) : Option (List String) :=
  (firstCleaned cs).map capTrim

/-- Read a parsed JSON array as a list of strings; `none` when some item is
not a string (`all(isinstance(item, str) ...)` fails). -/
def asStringList : List JVal → Option (List String)
  | [] => some []
  | .str s :: rest => (asStringList rest).map (s :: ·)
  | _ => none

/-- Validation of the expected `conversation` value
(`retrieval_handler.py:213-232`): must be a list of strings of length at
least 4; an odd-length list is trimmed by dropping its last element. -/
def validateConversation : JVal → Option (List String)
  | .arr elems =>
    match asStringList elems with
    | some conversation =>
      if 4 ≤ conversation.length then
        if conversation.length % 2 = 0 then some conversation
        else some conversation.dropLast
      else none
    | none => none
  | _ => none

/-- The alternative key names probed for conversations
(`retrieval_handler.py:235`). -/
def podcastAltKeys : List String :=
  ["dialogue", "script", "podcast", "messages", "exchanges", "lines"]

/-- The value of the first alternative key present in the parsed object;
the Python loop `break`s after the first key found, whether or not its
value validates (`retrieval_handler.py:236-246`). -/
def firstPresentKey (kvs : List (String × JVal)) : List String → Option JVal
  | [] => none
  | k :: ks =>
    match jlookup kvs k with
    | some v => some v
    | none => firstPresentKey kvs ks

/-- Validation of an alternative-key conversation
(`retrieval_handler.py:240-245`): a list of length at least 4 whose items
are all strings, trimmed to even length. -/
def altConvAccept : JVal → Option (List String)
  | .arr elems =>
    if 4 ≤ elems.length then
      match asStringList elems with
      | some conversation =>
        if conversation.length % 2 ≠ 0 then some conversation.dropLast
        else some conversation
      | none => none
    else none
  | _ => none

/-- The JSON tier of `extract_podcast_conversation_from_response`
(`retrieval_handler.py:203-250`): greedy brace match, `json.loads`, then
either the expected `conversation` key or the first alternative key; every
failure inside this tier falls through (`none`) to the text-pattern tier.
A successful whole-input parse of a candidate starting with a brace is
necessarily an object. -/
def convJsonTier (cs : List Char) : Option (List String) :=
  match jsonCandidate cs with
  | none => none
  | some s =>
    match jparse s with
    | some (.obj kvs) =>
      match jlookup kvs "conversation" with
      | some v => validateConversation v
      | none =>
        match firstPresentKey kvs podcastAltKeys with
        | some v => altConvAccept v
        | none => none
    | _ => none

/-- The canned `debater` conversation (`retrieval_handler.py:286-295`). -/
def debaterFallback : List String := [
  "Welcome to our debate-style analysis of your selected text.",
  "I believe this topic has some controversial aspects worth discussing.",
  "That's an interesting perspective. However, I see some counterarguments.",
  "Fair point, but let's consider the evidence from multiple angles.",
  "The data seems to support both viewpoints to some degree.",
  "True, this complexity makes it a fascinating subject for analysis.",
  "Let's explore what the context reveals about these different positions.",
  "The insights suggest this topic deserves deeper investigation."]

/-- The canned `investigator` conversation (`retrieval_handler.py:296-305`). -/
def investigatorFallback : List String := [
  "Let's investigate your selected text with a critical eye.",
  "The evidence in our context provides several key insights.",
  "What specific details support these findings?",
  "The documentation shows clear patterns worth examining.",
  "Are there any gaps in the information we should note?",
  "Good question - some areas definitely need more investigation.",
  "The factual analysis reveals important connections.",
  "This investigation approach helps uncover hidden insights."]

/-- The canned `fundamentals` conversation (`retrieval_handler.py:306-315`). -/
def fundamentalsFallback : List String := [
  "Let's start with the basic concepts underlying your selected text.",
  "Understanding the fundamentals is crucial for deeper analysis.",
  "What are the core principles we should establish first?",
  "The foundational elements include several key components.",
  "How do these basics connect to more advanced concepts?",
  "That's where it gets interesting - the progression is quite logical.",
  "Building from these fundamentals leads to richer understanding.",
  "Exactly, this step-by-step approach reveals the full picture."]

/-- The canned `connections` conversation (`retrieval_handler.py:316-325`). -/
def connectionsFallback : List String := [
  "Let's explore the surprising connections in your selected text.",
  "This topic links to several unexpected areas worth discussing.",
  "What patterns do you see emerging across different domains?",
  "The connections span multiple fields in fascinating ways.",
  "Are there analogies that might help illustrate these relationships?",
  "Great question - there are some compelling parallels to consider.",
  "These cross-domain insights reveal deeper underlying principles.",
  "The interconnected nature of knowledge always amazes me."]

/-- The generic conversation used for a persona without a canned entry
(`retrieval_handler.py:328-337`). -/
def genericFallback : List String := [
  "Welcome to our podcast discussion.",
  "Unfortunately, we encountered some technical difficulties.",
  "Let's explore your selected text as best we can.",
  "The context provides valuable insights worth discussing.",
  "Thank you for your patience with this analysis.",
  "We hope this perspective is still helpful.",
  "Please feel free to try again for better results.",
  "Thanks for listening to our discussion."]

/-- The dictionary lookup with default of `retrieval_handler.py:328`:
`fallback_conversations.get(persona, [...])`. -/
def fallback_conversations (persona : String) : List String :=
  if persona = "debater" then debaterFallback
  else if persona = "investigator" then investigatorFallback
  else if persona = "fundamentals" then fundamentalsFallback
  else if persona = "connections" then connectionsFallback
  else genericFallback

/-- Model of `extract_podcast_conversation_from_response`
(`retrieval_handler.py:195-337`): JSON tier, then text-pattern tier, then
canned fallback. -/
def extract_podcast_conversation_from_response (text persona : String) :
    List String :=
  match convJsonTier text.data with
  | some conversation => conversation
  | none =>
    match textPatternTier text.data with
    | some lines => lines
    | none => fallback_conversations persona

example : extract_podcast_conversation_from_response
    "\x7b\"conversation\": [\"aa\", \"bb\", \"cc\", \"dd\", \"ee\"]\x7d" "debater" =
    ["aa", "bb", "cc", "dd"] := by rfl

example : extract_podcast_conversation_from_response "hello" "debater" =
    debaterFallback := by rfl

example : findallHost "Host: here is a line\nhost:  another line here".data =
    ["here is a line", "another line here"] := by rfl

/-- Validation of one insight element (`retrieval_handler.py:143-160`): a
dict gets missing `original_content`/`page_number`/`document_name` fields
appended (in that order); a string is wrapped into a minimal record; any
other value is dropped. -/
def validateInsight (insight_type : String) : JVal → Option JVal
  | .obj kvs =>
    let k1 := if jhasKey kvs "original_content" then kvs
      else kvs ++ [("original_content",
        .str ("Content not available for this " ++ insight_type))]
    let k2 := if jhasKey k1 "page_number" then k1
      else k1 ++ [("page_number", .num 0)]
    let k3 := if jhasKey k2 "document_name" then k2
      else k2 ++ [("document_name", .str "Unknown Document")]
    some (.obj k3)
  | .str s =>
    some (.obj [("original_content", .str s), ("page_number", .num 0),
      ("document_name", .str "Unknown Document"), ("bounding_box", .obj [])])
  | _ => none

/-- The alternative key names probed for insights
(`retrieval_handler.py:169-173`). -/
def alternative_keys (expected_key : String) : List String :=
  if expected_key = "contradictions" then
    ["contradictory", "opposing", "conflicts", "disagreements"]
  else if expected_key = "enhancements" then
    ["details", "expansions", "elaborations", "specifics"]
  else if expected_key = "connections" then
    ["related", "links", "associations", "relationships"]
  else []

/-- The alternative-key loop of `retrieval_handler.py:175-180`: the first
alternative key present whose value is a non-empty list; a present key with
an empty or non-list value falls through to the next alternative. -/
def firstAltList (kvs : List (String × JVal)) : List String → Option (List JVal)
  | [] => none
  | k :: ks =>
    match jlookup kvs k with
    | some (.arr l) => if l ≠ [] then some l else firstAltList kvs ks
    | _ => firstAltList kvs ks

/-- The wrapped-structure scan of `retrieval_handler.py:183-186`: the first
item of the parsed object (in insertion order) whose value is a non-empty
list. -/
def firstListValued : List (String × JVal) → Option (List JVal)
  | [] => none
  | (_, .arr l) :: rest => if 0 < l.length then some l else firstListValued rest
  | _ :: rest => firstListValued rest

/-- Model of `extract_insights_from_response`
(`retrieval_handler.py:123-193`), with explicit fuel for the two recursive
call sites (lines 180 and 186), which re-serialise part of the parsed
object and recurse on it.  Running out of fuel models Python's
`RecursionError` (the source recursion is genuinely unbounded: a non-empty
list under the expected key none of whose items is a dict or a string
recurses on itself forever); the error is an `Exception`, so every caller
in the module catches it.  All other failure modes return `.ok []`. -/
def extract_insights_fuel :
    Nat → List Char → String → String → Except Unit (List JVal)
  | 0, _, _, _ => .error ()
  | fuel + 1, text, expected_key, insight_type =>
    match jsonCandidate text with
    | none => .ok []
    | some s =>
      match jparse s with
      | some (.obj kvs) =>
        let direct : List JVal :=
          match jlookup kvs expected_key with
          | some (.arr insights) => insights.filterMap (validateInsight insight_type)
          | _ => []
        if direct ≠ [] then .ok direct
        else
          match firstAltList kvs (alternative_keys expected_key) with
          | some l =>
            extract_insights_fuel fuel
              (jdumps (.obj [(expected_key, .arr l)])).data expected_key insight_type
          | none =>
            match firstListValued kvs with
            | some l =>
              extract_insights_fuel fuel
                (jdumps (.obj [(expected_key, .arr l)])).data expected_key insight_type
            | none => .ok []
      | _ => .ok []
    

/-- `extract_insights_from_response` at Python's default recursion budget. -/
def extract_insights_from_response (text expected_key insight_type : String) :
    Except Unit (List JVal) :=
  extract_insights_fuel 1000 text.data expected_key insight_type

/-- Length of an extraction result (`0` for the `RecursionError` case). -/
def insightCount (r : Except Unit (List JVal)) : Nat :=
  match r with
  | .ok l => l.length
  | .error _ => 0

/-- Outcome of one `generate_content_async` call, as seen by a
`find_*_async` wrapper: the call raised, the response was blocked
(`not response.parts`), or it produced reply text. -/
inductive GenOutcome where
  | exc
  | blocked
  | reply (text : String)

/-- Common body of `find_enhancements_async` / `find_connections_async` /
`find_contradictions_async` (`retrieval_handler.py:529-572`): a raised
generation call or a blocked response yields `[]`; otherwise the reply goes
through `extract_insights_from_response`, whose own `RecursionError` is
caught by the surrounding `except Exception` and also yields `[]`. -/
def find_insights_async (g : GenOutcome) (expected_key insight_type : String) :
    List JVal :=
  match g with
  | .exc => []
  | .blocked => []
  | .reply t =>
    match extract_insights_from_response t expected_key insight_type with
    | .ok r => r
    | .error _ => []

/-- `find_enhancements_async` (`retrieval_handler.py:529-542`). -/
def find_enhancements_async (g : GenOutcome) : List JVal :=
  find_insights_async g "enhancements" "enhancement"

/-- `find_connections_async` (`retrieval_handler.py:544-557`). -/
def find_connections_async (g : GenOutcome) : List JVal :=
  find_insights_async g "connections" "connection"

/-- `find_contradictions_async` (`retrieval_handler.py:559-572`). -/
def find_contradictions_async (g : GenOutcome) : List JVal :=
  find_insights_async g "contradictions" "contradiction"

/-- The aggregate returned by `generate_initial_insights_async`: the three
keys of the final dictionary. -/
structure InsightSet where
  enhancements : List JVal
  connections : List JVal
  contradictions : List JVal
deriving DecidableEq

/-- Outcome of one fanned-out task as delivered by
`asyncio.gather(..., return_exceptions=True)`: either the value returned by
the task or the exception it raised. -/
inductive TaskResult where
  | ok (r : List JVal)
  | exc

/-- The per-result recovery of `retrieval_handler.py:613-615`:
`results[i] if not isinstance(results[i], Exception) else []`. -/
def resultOrEmpty : TaskResult → List JVal
  | .ok r => r
  | .exc => []

/-- Model of `generate_initial_insights_async`
(`retrieval_handler.py:575-639`).  `large_context` is the deep-retrieval
result; `enh`, `conn`, `contra` are the outcomes of the three concurrent
tasks (dispatched in that order at lines 590-601).  An empty context
short-circuits to three empty lists; otherwise `gather` waits for all three
outcomes and each exception is replaced by `[]` independently. -/
def generate_initial_insights_async (large_context : List JVal)
    (enh conn contra : TaskResult) : InsightSet :=
  if large_context.isEmpty then
    { enhancements := [], connections := [], contradictions := [] }
  else
    { enhancements := resultOrEmpty enh
      connections := resultOrEmpty conn
      contradictions := resultOrEmpty contra }

example : extract_insights_from_response
    "\x7b\"conflicts\": [\x7b\"text\": \"x\"\x7d]\x7d" "contradictions" "contradiction" =
    .ok [.obj [("text", .str "x"),
      ("original_content", .str "Content not available for this contradiction"),
      ("page_number", .num 0),
      ("document_name", .str "Unknown Document")]] := by rfl

/-- The per-record normalisation of the validate-and-clean loops
(`retrieval_handler.py:415-428` and `:500-513`): fill a missing
`page_number` with `0` and a missing `document_name` with
`"Unknown Document"` (each appended in insertion order), then fix the
`bounding_box` field.  `fillKey` is one fill-if-missing step. -/
def fillKey (kvs : List (String × JVal)) (k : String) (v : JVal) :
    List (String × JVal) :=
  if jhasKey kvs k then kvs else kvs ++ [(k, v)]

/-- The bounding-box step of the same loops: a string-valued
`bounding_box` is replaced in place by its `json.loads` (empty object on
parse failure); an absent `bounding_box` is appended as an empty object;
any other value is left alone. -/
def fixBBox (kvs : List (String × JVal)) : List (String × JVal) :=
  match jlookup kvs "bounding_box" with
  | some (.str s) => jupdate kvs "bounding_box" ((jparse s.data).getD (.obj []))
  | some _ => kvs
  | none => kvs ++ [("bounding_box", .obj [])]

/-- The whole per-record normalisation, in source order. -/
def normObj (kvs : List (String × JVal)) : List (String × JVal) :=
  fixBBox (fillKey (fillKey kvs "page_number" (.num 0))
    "document_name" (.str "Unknown Document"))

/-- The content a record is deduplicated on:
`meta.get('original_content', '')`. -/
def contentOf (kvs : List (String × JVal)) : JVal :=
  (jlookup kvs "original_content").getD (.str "")

/-- The validate-and-clean loop of both retrieval paths
(`retrieval_handler.py:400-434` and `:479-520`; the two loops are identical
up to logging counters): skip non-dict records, skip records whose content
is falsy or already seen, normalise the survivors, preserving order.
`seen` is the accumulated `seen_content` set. -/
def dedupGo : List JVal → List JVal → List JVal
  | [], _ => []
  | m :: rest, seen =>
    match m with
    | .obj kvs =>
      let content := contentOf kvs
      if jtruthy content = false ∨ content ∈ seen then dedupGo rest seen
      else .obj (normObj kvs) :: dedupGo rest (content :: seen)
    | _ => dedupGo rest seen

/-- The whole dedup-and-normalise pass, started with an empty seen set. -/
def dedupNormalize (metas : List JVal) : List JVal := dedupGo metas []

/-- Insert one scored candidate into a list sorted by descending score,
after all entries with an equal or higher score (the placement Python's
stable `sorted(..., key=lambda x: x[0], reverse=True)` gives it). -/
def insertDesc (x : Int × JVal) : List (Int × JVal) → List (Int × JVal)
  | [] => [x]
  | y :: ys => if y.1 < x.1 then x :: y :: ys else y :: insertDesc x ys

/-- Stable descending sort by score (`retrieval_handler.py:394`); reranker
scores are modelled as integers. -/
def stableSortDesc (l : List (Int × JVal)) : List (Int × JVal) :=
  l.foldl (fun acc x => insertDesc x acc) []

/-- The input guard of both retrieval functions
(`retrieval_handler.py:362` and `:451`):
`not user_selection or len(user_selection.strip()) < 3`. -/
def selectionTooShort (user_selection : String) : Bool :=
  user_selection = "" ∨ (pyStrip user_selection).length < 3

/-- The embedding-result check of `retrieval_handler.py:373`:
`not result or 'embedding' not in result`.  (A truthy non-dict result would
raise a `TypeError` on the `in`, which the surrounding handler also turns
into `[]`, so it is modelled as failing the check.) -/
def embedResultOk : JVal → Bool
  | .obj kvs => ¬ kvs.isEmpty ∧ jhasKey kvs "embedding"
  | _ => false

/-- Model of `retrieve_fast_async` (`retrieval_handler.py:354-441`).
Service outcomes are explicit arguments: `embed` is the embedding call's
result (`none` when it raised), `queryMetas` the vector-store candidate
metadatas (`none` when the query or the `[0]` indexing raised), and
`rerankScores` the reranker's scores for the candidate pairs (`none` when
`predict` — or building the pairs — raised, the case handled at lines
396-398 by keeping the original order).  Every exception path of the
source returns `[]` through the outer `except`. -/
def retrieve_fast_async (user_selection : String) (embed : Option JVal)
    (queryMetas : Option (List JVal)) (rerankScores : Option (List Int)) :
    List JVal :=
  if selectionTooShort user_selection then []
  else
    match embed with
    | none => []
    | some r =>
      if ¬ embedResultOk r then []
      else
        match queryMetas with
        | none => []
        | some candidate_metadatas =>
          if candidate_metadatas.isEmpty then []
          else
            let reranked_results :=
              match rerankScores with
              | some scores =>
                ((stableSortDesc (scores.zip candidate_metadatas)).take 30).map
                  (fun p => p.2)
              | none => candidate_metadatas.take 30
            dedupNormalize reranked_results

/-- Model of `retrieve_large_context_async`
(`retrieval_handler.py:443-527`): same pipeline without the reranking and
without the top-30 cut. -/
def retrieve_large_context_async (user_selection : String) (embed : Option JVal)
    (queryMetas : Option (List JVal)) : List JVal :=
  if selectionTooShort user_selection then []
  else
    match embed with
    | none => []
    | some r =>
      if ¬ embedResultOk r then []
      else
        match queryMetas with
        | none => []
        | some candidate_metadatas =>
          if candidate_metadatas.isEmpty then []
          else dedupNormalize candidate_metadatas

/-- Specification-side first-seen deduplication: keep the first occurrence
of each value, delete the later ones. -/
def dedupKeepFirst : List JVal → List JVal
  | [] => []
  | x :: xs => x :: dedupKeepFirst (xs.filter (fun y => y ≠ x))
termination_by l => l.length
decreasing_by
  simp only [List.length_cons]
  exact Nat.lt_succ_of_le (List.length_filter_le _ _)

/-- The deduplication contents of an input list: for each dict record, its
`original_content` (with the empty-string default), kept when truthy. -/
def inContents (metas : List JVal) : List JVal :=
  metas.filterMap (fun m =>
    match m with
    | .obj kvs => if jtruthy (contentOf kvs) then some (contentOf kvs) else none
    | _ => none)

/-- The deduplication content of an output record. -/
def outContent (m : JVal) : JVal :=
  match m with
  | .obj kvs => contentOf kvs
  | _ => .str ""

/-- A record whose `bounding_box` field is not a string (the shape every
record has after normalisation unless its original `bounding_box` was a
JSON-encoded string decoding to another string). -/
def bboxNotString (m : JVal) : Bool :=
  match m with
  | .obj kvs =>
    match jlookup kvs "bounding_box" with
    | some (.str _) => false
    | _ => true
  | _ => true

example : dedupNormalize [.obj [("original_content", .str "x")],
    .obj [("original_content", .str "x"), ("page_number", .num 7)],
    .obj [("original_content", .str "y")]] =
    [.obj [("original_content", .str "x"), ("page_number", .num 0),
      ("document_name", .str "Unknown Document"), ("bounding_box", .obj [])],
     .obj [("original_content", .str "y"), ("page_number", .num 0),
      ("document_name", .str "Unknown Document"), ("bounding_box", .obj [])]] := by rfl

/-- C9: a user selection that is empty or whose stripped form is shorter
than 3 characters makes both retrieval operations return the empty list,
whatever the external services would have answered (the result does not
depend on the embedding, vector-store or reranker outcomes, which
formalises that those services are not consulted). -/
theorem short_selection_short_circuits (sel : String) (embed : Option JVal)
    (queryMetas : Option (List JVal)) (rerankScores : Option (List Int))
    (embed2 : Option JVal) (queryMetas2 : Option (List JVal))
    (h : sel = "" ∨ (pyStrip sel).length < 3) :
    retrieve_fast_async sel embed queryMetas rerankScores = [] ∧
    retrieve_large_context_async sel embed2 queryMetas2 = [] := by
  have hs : selectionTooShort sel = true := by
    unfold selectionTooShort
    exact decide_eq_true h
  constructor
  · unfold retrieve_fast_async
    rw [hs]
    rfl
  · unfold retrieve_large_context_async
    rw [hs]
    rfl

/-- Witness for C9 at the concrete selection `" a "` (stripped length 1). -/
theorem short_selection_short_circuits_witness :
    retrieve_fast_async " a " none none none = [] ∧
    retrieve_large_context_async " a " none none = [] :=
  short_selection_short_circuits " a " none none none none none (by decide)

/-- C2: with a non-empty deep-retrieval context, an exception in any one of
the three fanned-out generation-plus-extraction tasks leaves the other two
entries exactly equal to their own extracted results, the failed entry is
the empty list, and the aggregate always carries all three keys (it is a
total `InsightSet`). -/
theorem insight_fanout_isolation (ctx : List JVal) (h : ctx.isEmpty = false)
    (g1 g2 : GenOutcome) :
    generate_initial_insights_async ctx .exc
        (.ok (find_connections_async g1)) (.ok (find_contradictions_async g2)) =
      ⟨[], find_connections_async g1, find_contradictions_async g2⟩ ∧
    generate_initial_insights_async ctx (.ok (find_enhancements_async g1)) .exc
        (.ok (find_contradictions_async g2)) =
      ⟨find_enhancements_async g1, [], find_contradictions_async g2⟩ ∧
    generate_initial_insights_async ctx (.ok (find_enhancements_async g1))
        (.ok (find_connections_async g2)) .exc =
      ⟨find_enhancements_async g1, find_connections_async g2, []⟩ := by
  unfold generate_initial_insights_async
  rw [h]
  exact ⟨rfl, rfl, rfl⟩

/-- Witness for C2 at a one-record context and blocked sibling calls. -/
theorem insight_fanout_isolation_witness :
    generate_initial_insights_async [JVal.null] .exc
        (.ok (find_connections_async .blocked)) (.ok (find_contradictions_async .blocked)) =
      ⟨[], find_connections_async .blocked, find_contradictions_async .blocked⟩ ∧
    generate_initial_insights_async [JVal.null] (.ok (find_enhancements_async .blocked)) .exc
        (.ok (find_contradictions_async .blocked)) =
      ⟨find_enhancements_async .blocked, [], find_contradictions_async .blocked⟩ ∧
    generate_initial_insights_async [JVal.null] (.ok (find_enhancements_async .blocked))
        (.ok (find_connections_async .blocked)) .exc =
      ⟨find_enhancements_async .blocked, find_connections_async .blocked, []⟩ :=
  insight_fanout_isolation [JVal.null] rfl .blocked .blocked

/-- C6: when the reranker raises (modelled by `rerankScores = none`) and
fast retrieval otherwise reaches the reranking step, the function returns
normally with the first 30 candidates of the original vector-store order,
passed through the dedup-and-normalise step — reranking failure is not
fatal and does not reorder. -/
theorem rerank_failure_degrades (sel : String) (r : JVal) (metas : List JVal)
    (hsel : selectionTooShort sel = false) (hemb : embedResultOk r = true)
    (hm : metas.isEmpty = false) :
    retrieve_fast_async sel (some r) (some metas) none =
      dedupNormalize (metas.take 30) := by
  unfold retrieve_fast_async
  simp [hsel, hemb, hm]

/-- Witness for C6 at a 3-character selection, a well-formed embedding
result and a single candidate. -/
theorem rerank_failure_degrades_witness :
    retrieve_fast_async "abc" (some (.obj [("embedding", .arr [.num 1])]))
      (some [.obj [("original_content", .str "x")]]) none =
    dedupNormalize ([JVal.obj [("original_content", .str "x")]].take 30) :=
  rerank_failure_degrades "abc" (.obj [("embedding", .arr [.num 1])])
    [.obj [("original_content", .str "x")]] (by decide) (by decide) rfl

/-- A mapped list of string values reads back as the list itself. -/
theorem asStringList_map_str (l : List String) :
    asStringList (l.map JVal.str) = some l := by
  induction l with
  | nil => rfl
  | cons x xs ih => simp [asStringList, ih]

/-- A list read back as strings has the same length. -/
theorem asStringList_length (elems : List JVal) :
    ∀ conv, asStringList elems = some conv → conv.length = elems.length := by
  induction elems with
  | nil =>
    intro conv h
    injection h with h'
    subst h'
    rfl
  | cons e rest ih =>
    intro conv h
    cases e with
    | str s =>
      simp only [asStringList] at h
      cases ht : asStringList rest with
      | none => rw [ht] at h; cases h
      | some tail =>
        rw [ht] at h
        simp only [Option.map_some'] at h
        injection h with h'
        subst h'
        simp [ih tail ht]
    | null => simp [asStringList] at h
    | bool b => simp [asStringList] at h
    | num n => simp [asStringList] at h
    | arr l => simp [asStringList] at h
    | obj kvs => simp [asStringList] at h

/-- Every conversation accepted from the expected `conversation` key has
even length at least 4. -/
theorem validateConversation_even (v : JVal) (c : List String)
    (h : validateConversation v = some c) :
    c.length % 2 = 0 ∧ 4 ≤ c.length := by
  unfold validateConversation at h
  split at h
  · split at h
    · split_ifs at h with h4 he
      · injection h with h'
        subst h'
        exact ⟨he, h4⟩
      · injection h with h'
        subst h'
        simp only [List.length_dropLast]
        omega
    · cases h
  · cases h

/-- Every conversation accepted from an alternative key has even length at
least 4. -/
theorem altConvAccept_even (v : JVal) (c : List String)
    (h : altConvAccept v = some c) :
    c.length % 2 = 0 ∧ 4 ≤ c.length := by
  unfold altConvAccept at h
  split at h
  · split_ifs at h with h4
    split at h
    · rename_i conv hsl
      have hlen := asStringList_length _ conv hsl
      split_ifs at h with he
      · injection h with h'
        subst h'
        simp only [List.length_dropLast]
        omega
      · injection h with h'
        subst h'
        omega
    · cases h
  · cases h

/-- Every conversation the JSON tier yields has even length at least 4. -/
theorem convJsonTier_even (cs : List Char) (c : List String)
    (h : convJsonTier cs = some c) :
    c.length % 2 = 0 ∧ 4 ≤ c.length := by
  unfold convJsonTier at h
  split at h
  · cases h
  · split at h
    · split at h
      · exact validateConversation_even _ _ h
      · split at h
        · exact altConvAccept_even _ _ h
        · cases h
    · cases h

/-- The winning pattern of the text tier always carries at least 4 cleaned
matches. -/
theorem firstCleaned_ge4 (cs : List Char) (c : List String)
    (h : firstCleaned cs = some c) : 4 ≤ c.length := by
  simp only [firstCleaned] at h
  split_ifs at h <;>
    (injection h with h'; subst h'; assumption)

/-- Capping at 12 and trimming to even keeps the length even and at least
4 when at least 4 lines were extracted. -/
theorem capTrim_even (c : List String) (h4 : 4 ≤ c.length) :
    (capTrim c).length % 2 = 0 ∧ 4 ≤ (capTrim c).length := by
  have h12 : capTrim c = if (c.take 12).length % 2 ≠ 0 then
      (c.take 12).dropLast else c.take 12 := rfl
  rw [h12]
  split_ifs with he
  · simp only [List.length_dropLast, List.length_take] at *
    omega
  · simp only [List.length_take] at *
    omega

/-- Each canned fallback conversation has exactly 8 lines. -/
theorem fallback_conversations_length (persona : String) :
    (fallback_conversations persona).length = 8 := by
  unfold fallback_conversations
  split_ifs <;> rfl

/-- C1: for every reply text and every persona of the closed set, the
extracted conversation has even length at least 4; moreover, an odd-length
candidate (of length at least 4) on the expected-key tier, the
alternative-key tier or the text-pattern tier is trimmed by dropping its
last element, never padded. -/
theorem podcast_conversation_parity (text persona : String)
    (_hp : persona ∈ ["debater", "investigator", "fundamentals", "connections"]) :
    ((extract_podcast_conversation_from_response text persona).length % 2 = 0 ∧
      4 ≤ (extract_podcast_conversation_from_response text persona).length) ∧
    (∀ elems : List String, 4 ≤ elems.length → elems.length % 2 ≠ 0 →
      validateConversation (.arr (elems.map JVal.str)) = some elems.dropLast ∧
      altConvAccept (.arr (elems.map JVal.str)) = some elems.dropLast) ∧
    (∀ cleaned : List String, (cleaned.take 12).length % 2 ≠ 0 →
      capTrim cleaned = (cleaned.take 12).dropLast) := by
  refine ⟨?_, ?_, ?_⟩
  · unfold extract_podcast_conversation_from_response
    cases hj : convJsonTier text.data with
    | some conversation => exact convJsonTier_even _ _ hj
    | none =>
      cases ht : textPatternTier text.data with
      | some lines =>
        unfold textPatternTier at ht
        cases hf : firstCleaned text.data with
        | none => rw [hf] at ht; cases ht
        | some cleaned =>
          rw [hf] at ht
          simp only [Option.map_some'] at ht
          injection ht with ht'
          subst ht'
          exact capTrim_even cleaned (firstCleaned_ge4 _ _ hf)
      | none =>
        rw [fallback_conversations_length persona]
        omega
  · intro elems h4 hodd
    constructor
    · simp only [validateConversation, asStringList_map_str]
      rw [if_pos h4, if_neg hodd]
    · simp only [altConvAccept, asStringList_map_str, List.length_map]
      rw [if_pos h4, if_pos hodd]
  · intro cleaned hodd
    have h12 : capTrim cleaned = if (cleaned.take 12).length % 2 ≠ 0 then
        (cleaned.take 12).dropLast else cleaned.take 12 := rfl
    rw [h12, if_pos hodd]

/-- Witness for C1 at the empty reply and persona `debater`. -/
theorem podcast_conversation_parity_witness :
    ((extract_podcast_conversation_from_response "" "debater").length % 2 = 0 ∧
      4 ≤ (extract_podcast_conversation_from_response "" "debater").length) ∧
    (∀ elems : List String, 4 ≤ elems.length → elems.length % 2 ≠ 0 →
      validateConversation (.arr (elems.map JVal.str)) = some elems.dropLast ∧
      altConvAccept (.arr (elems.map JVal.str)) = some elems.dropLast) ∧
    (∀ cleaned : List String, (cleaned.take 12).length % 2 ≠ 0 →
      capTrim cleaned = (cleaned.take 12).dropLast) :=
  podcast_conversation_parity "" "debater" (by decide)

/-- C7: a reply with no brace-delimited JSON candidate and no dialogue
pattern producing at least 4 cleaned matches (each stripped match longer
than 10 characters) makes extraction for persona `debater` return exactly
the fixed 8-line canned `debater` conversation; the function is pure, so
the result is identical on every invocation over this input class. -/
theorem total_fallback_determinism (text : String)
    (h0 : jsonCandidate text.data = none)
    (h1 : (cleanedMatches (findallQuoted text.data)).length < 4)
    (h2 : (cleanedMatches (findallHost text.data)).length < 4)
    (h3 : (cleanedMatches (findallAnalyst text.data)).length < 4)
    (h4 : (cleanedMatches (findallBullet text.data)).length < 4)
    (h5 : (cleanedMatches (findallNumbered text.data)).length < 4)
    (h6 : (cleanedMatches (findallDashed text.data)).length < 4) :
    extract_podcast_conversation_from_response text "debater" =
      debaterFallback := by
  have hj : convJsonTier text.data = none := by
    unfold convJsonTier
    rw [h0]
  have hf : firstCleaned text.data = none := by
    simp only [firstCleaned]
    rw [if_neg (by omega), if_neg (by omega), if_neg (by omega),
      if_neg (by omega), if_neg (by omega), if_neg (by omega)]
  unfold extract_podcast_conversation_from_response
  rw [hj]
  unfold textPatternTier
  rw [hf]
  rfl

/-- Witness for C7 at the concrete reply `"hello"`. -/
theorem total_fallback_determinism_witness :
    extract_podcast_conversation_from_response "hello" "debater" =
      debaterFallback :=
  total_fallback_determinism "hello" (by decide) (by decide) (by decide)
    (by decide) (by decide) (by decide) (by decide)

/-- C10: for a persona outside the closed set, when the JSON tier and the
text-pattern tier both fail, extraction returns the fixed generic 8-line
conversation (even length, at least 4) — no error and no persona-specific
list.  (The model is a total function: no input makes it raise.) -/
theorem unknown_persona_generic_fallback (text persona : String)
    (hp : persona ∉ ["debater", "investigator", "fundamentals", "connections"])
    (hj : convJsonTier text.data = none)
    (ht : textPatternTier text.data = none) :
    extract_podcast_conversation_from_response text persona = genericFallback ∧
    genericFallback.length % 2 = 0 ∧ 4 ≤ genericFallback.length := by
  simp only [List.mem_cons, List.not_mem_nil, or_false, not_or] at hp
  obtain ⟨hd, hi, hf, hc⟩ := hp
  refine ⟨?_, by decide, by decide⟩
  unfold extract_podcast_conversation_from_response
  rw [hj, ht]
  unfold fallback_conversations
  rw [if_neg hd, if_neg hi, if_neg hf, if_neg hc]

/-- Witness for C10 at persona `"pirate"` and reply `"hello"`. -/
theorem unknown_persona_generic_fallback_witness :
    extract_podcast_conversation_from_response "hello" "pirate" = genericFallback ∧
    genericFallback.length % 2 = 0 ∧ 4 ≤ genericFallback.length :=
  unknown_persona_generic_fallback "hello" "pirate" (by decide) (by decide)
    (by decide)

/-- An insight element that survives validation: a dict or a string. -/
def isRecordLike : JVal → Bool
  | .obj _ => true
  | .str _ => true
  | _ => false

/-- Validation keeps exactly the dict and string elements. -/
theorem filterMap_validate_length (insight_type : String) (l : List JVal) :
    (l.filterMap (validateInsight insight_type)).length = l.countP isRecordLike := by
  induction l with
  | nil => rfl
  | cons v rest ih =>
    cases v <;>
      simp [List.filterMap_cons, validateInsight, List.countP_cons, isRecordLike, ih]

/-- C3 (amended): insight extraction enforces no upper bound of 5.  When
tier 2 succeeds — the greedy brace candidate parses to an object carrying
the expected key with a list value whose validation keeps at least one
element — the returned list consists of all validated elements: its length
equals the number of dict-or-string elements of the model's list, which
can exceed 5. -/
theorem extract_insights_no_cap (text expected_key insight_type : String)
    (s : List Char) (kvs : List (String × JVal)) (l : List JVal)
    (hc : jsonCandidate text.data = some s)
    (hp : jparse s = some (.obj kvs))
    (hk : jlookup kvs expected_key = some (.arr l))
    (hv : l.filterMap (validateInsight insight_type) ≠ []) :
    extract_insights_from_response text expected_key insight_type =
      .ok (l.filterMap (validateInsight insight_type)) ∧
    (l.filterMap (validateInsight insight_type)).length = l.countP isRecordLike := by
  refine ⟨?_, filterMap_validate_length insight_type l⟩
  unfold extract_insights_from_response
  have h1000 : (1000 : Nat) = 999 + 1 := rfl
  rw [h1000]
  unfold extract_insights_fuel
  simp only [hc, hp, hk]
  rw [if_pos hv]

/-- Witness for C3 (amended) at a reply whose `contradictions` list has 6
string elements. -/
theorem extract_insights_no_cap_witness :
    extract_insights_from_response
        "\x7b\"contradictions\": [\"a\", \"b\", \"c\", \"d\", \"e\", \"f\"]\x7d"
        "contradictions" "contradiction" =
      .ok ([JVal.str "a", .str "b", .str "c", .str "d", .str "e", .str "f"].filterMap
        (validateInsight "contradiction")) ∧
    ([JVal.str "a", .str "b", .str "c", .str "d", .str "e", .str "f"].filterMap
        (validateInsight "contradiction")).length =
      [JVal.str "a", .str "b", .str "c", .str "d", .str "e", .str "f"].countP isRecordLike :=
  extract_insights_no_cap
    "\x7b\"contradictions\": [\"a\", \"b\", \"c\", \"d\", \"e\", \"f\"]\x7d"
    "contradictions" "contradiction"
    "\x7b\"contradictions\": [\"a\", \"b\", \"c\", \"d\", \"e\", \"f\"]\x7d".data
    [("contradictions", .arr [.str "a", .str "b", .str "c", .str "d", .str "e", .str "f"])]
    [.str "a", .str "b", .str "c", .str "d", .str "e", .str "f"]
    rfl rfl rfl (by decide)

/-- Counterexample to C3 as stated: a reply whose `contradictions` list
has 6 string elements makes `extract_insights_from_response` return a
6-element list, exceeding the claimed bound of 5. -/
theorem insights_can_exceed_five :
    insightCount (extract_insights_from_response
      "\x7b\"contradictions\": [\"a\", \"b\", \"c\", \"d\", \"e\", \"f\"]\x7d"
      "contradictions" "contradiction") = 6 := by rfl

/-- C5 (amended): for the reply carrying the alias key `conflicts`, insight
extraction expecting `contradictions` recurses on the re-serialised aliased
content and returns a non-empty list whose single element carries
`"text": "x"` together with the injected default fields
`original_content` (placeholder), `page_number` `0` and `document_name`
`"Unknown Document"`. -/
theorem alias_recovery_with_defaults :
    extract_insights_from_response "\x7b\"conflicts\": [\x7b\"text\": \"x\"\x7d]\x7d"
        "contradictions" "contradiction" =
      .ok [.obj [("text", .str "x"),
        ("original_content", .str "Content not available for this contradiction"),
        ("page_number", .num 0),
        ("document_name", .str "Unknown Document")]] := by rfl

/-- Counterexample to C5 as stated: the returned list is not equal to the
aliased content `[ \x7b"text": "x"\x7d ]` — validation has enriched the
element with default fields. -/
theorem alias_recovery_not_exact :
    extract_insights_from_response "\x7b\"conflicts\": [\x7b\"text\": \"x\"\x7d]\x7d"
        "contradictions" "contradiction" ≠
      .ok [.obj [("text", .str "x")]] := by
  intro h
  have h2 : Except.ok (ε := Unit) [JVal.obj [("text", .str "x"),
      ("original_content", .str "Content not available for this contradiction"),
      ("page_number", .num 0),
      ("document_name", .str "Unknown Document")]] = .ok [.obj [("text", .str "x")]] := by
    rw [← h]
    rfl
  injection h2 with h'
  exact absurd h' (by decide)

/-- Dropping while a predicate holds skips a prefix on which it holds
everywhere. -/
theorem dropWhile_append_all (p : Char → Bool) (a l : List Char)
    (h : ∀ x ∈ a, p x = true) : (a ++ l).dropWhile p = l.dropWhile p := by
  induction a with
  | nil => rfl
  | cons c rest ih =>
    rw [List.cons_append, List.dropWhile_cons, if_pos (h c (by simp))]
    exact ih (fun x hx => h x (by simp [hx]))

/-- C4 (amended): tier 1 of both extraction state machines matches the
greedy span of `re.search(r'\x7b.*\x7d', ..., re.DOTALL)`: for a text that
decomposes as a brace-free prefix, an opening brace, a middle, a closing
brace and a close-brace-free suffix, the candidate handed to `json.loads`
runs from that first opening brace to the *last* closing brace of the whole
text — not to the end of the first balanced object.  Hence a well-formed
object followed by further text containing another closing brace is not
what gets parsed (the greedy span fails to parse and extraction falls to
the later tiers, as the counterexample evaluates). -/
theorem jsonCandidate_greedy (a m b : List Char)
    (ha : ∀ x ∈ a, x ≠ '\x7b')
    (hb : ∀ x ∈ b, x ≠ '\x7d') :
    jsonCandidate (a ++ '\x7b' :: (m ++ '\x7d' :: b)) =
      some ('\x7b' :: (m ++ ['\x7d'])) := by
  unfold jsonCandidate
  rw [dropWhile_append_all _ a _ (fun x hx => decide_eq_true (ha x hx))]
  rw [List.dropWhile_cons, if_neg (by simp)]
  simp only []
  have hrev : (m ++ '\x7d' :: b).reverse = b.reverse ++ '\x7d' :: m.reverse := by
    simp
  rw [hrev]
  rw [dropWhile_append_all _ b.reverse _
    (fun x hx => decide_eq_true (hb x (List.mem_reverse.mp hx)))]
  simp

/-- Witness for C4 (amended) at the text `"ab"` + brace + `"cd"` + brace +
`"ef"`. -/
theorem jsonCandidate_greedy_witness :
    jsonCandidate ("ab".data ++ '\x7b' :: ("cd".data ++ '\x7d' :: "ef".data)) =
      some ('\x7b' :: ("cd".data ++ ['\x7d'])) :=
  jsonCandidate_greedy "ab".data "cd".data "ef".data (by decide) (by decide)

/-- Counterexample to C4 as stated: the reply holds the well-formed
top-level object `\x7b"conversation": ["aaaa", "bbbb", "cccc", "dddd"]\x7d`
followed by a stray closing brace.  The claim would have tier 1 parse that
first object (a valid 4-line conversation, which tier 2 would return), but
the code's greedy candidate spans to the stray brace, fails to parse, and
podcast extraction falls through to the canned `debater` fallback instead
of the conversation `["aaaa", "bbbb", "cccc", "dddd"]`. -/
theorem tier1_not_first_object :
    jparse "\x7b\"conversation\": [\"aaaa\", \"bbbb\", \"cccc\", \"dddd\"]\x7d".data =
      some (.obj [("conversation",
        .arr [.str "aaaa", .str "bbbb", .str "cccc", .str "dddd"])]) ∧
    jsonCandidate
        "\x7b\"conversation\": [\"aaaa\", \"bbbb\", \"cccc\", \"dddd\"]\x7d \x7d".data =
      some "\x7b\"conversation\": [\"aaaa\", \"bbbb\", \"cccc\", \"dddd\"]\x7d \x7d".data ∧
    jparse "\x7b\"conversation\": [\"aaaa\", \"bbbb\", \"cccc\", \"dddd\"]\x7d \x7d".data =
      none ∧
    extract_podcast_conversation_from_response
        "\x7b\"conversation\": [\"aaaa\", \"bbbb\", \"cccc\", \"dddd\"]\x7d \x7d" "debater" =
      debaterFallback ∧
    debaterFallback ≠ ["aaaa", "bbbb", "cccc", "dddd"] :=
  ⟨rfl, rfl, rfl, rfl, by decide⟩

/-- A lookup that succeeds on the left part of an append succeeds on the
whole. -/
theorem jlookup_append_left (l1 l2 : List (String × JVal)) (key : String)
    (v : JVal) (h : jlookup l1 key = some v) :
    jlookup (l1 ++ l2) key = some v := by
  induction l1 with
  | nil => cases h
  | cons p rest ih =>
    obtain ⟨k, w⟩ := p
    simp only [jlookup, List.cons_append] at *
    by_cases hk : k = key
    · rw [if_pos hk] at h ⊢
      exact h
    · rw [if_neg hk] at h ⊢
      exact ih h

/-- A lookup that fails on the left part of an append is decided by the
right part. -/
theorem jlookup_append_right (l1 l2 : List (String × JVal)) (key : String)
    (h : jlookup l1 key = none) :
    jlookup (l1 ++ l2) key = jlookup l2 key := by
  induction l1 with
  | nil => rfl
  | cons p rest ih =>
    obtain ⟨k, w⟩ := p
    simp only [jlookup, List.cons_append] at *
    by_cases hk : k = key
    · rw [if_pos hk] at h
      cases h
    · rw [if_neg hk] at h ⊢
      exact ih h

/-- Updating one key leaves lookups of other keys unchanged. -/
theorem jlookup_jupdate_ne (kvs : List (String × JVal)) (k key : String)
    (v : JVal) (h : key ≠ k) :
    jlookup (jupdate kvs k v) key = jlookup kvs key := by
  induction kvs with
  | nil => rfl
  | cons p rest ih =>
    obtain ⟨k0, w⟩ := p
    simp only [jupdate]
    by_cases hk : k0 = k
    · rw [if_pos hk]
      simp only [jlookup]
      rw [if_neg (by rw [hk]; exact fun e => h e.symm),
        if_neg (by rw [hk]; exact fun e => h e.symm)]
    · rw [if_neg hk]
      simp only [jlookup]
      by_cases hk2 : k0 = key
      · rw [if_pos hk2, if_pos hk2]
      · rw [if_neg hk2, if_neg hk2]
        exact ih

/-- Updating a present key makes its lookup the new value. -/
theorem jlookup_jupdate_self (kvs : List (String × JVal)) (k : String)
    (v w : JVal) (h : jlookup kvs k = some w) :
    jlookup (jupdate kvs k v) k = some v := by
  induction kvs with
  | nil => cases h
  | cons p rest ih =>
    obtain ⟨k0, w0⟩ := p
    simp only [jupdate, jlookup] at *
    by_cases hk : k0 = k
    · rw [if_pos hk]
      simp only [jlookup]
      rw [if_pos hk]
    · rw [if_neg hk] at h ⊢
      simp only [jlookup]
      rw [if_neg hk]
      exact ih h

/-- Filling one key leaves lookups of other keys unchanged. -/
theorem jlookup_fillKey_ne (kvs : List (String × JVal)) (k key : String)
    (v : JVal) (h : key ≠ k) :
    jlookup (fillKey kvs k v) key = jlookup kvs key := by
  unfold fillKey
  split_ifs with hk
  · rfl
  · cases hl : jlookup kvs key with
    | some w => exact jlookup_append_left _ _ _ _ hl
    | none =>
      rw [jlookup_append_right _ _ _ hl]
      simp only [jlookup]
      rw [if_neg (fun e => h e.symm)]

/-- After filling, the key is present. -/
theorem jlookup_fillKey_self (kvs : List (String × JVal)) (k : String)
    (v : JVal) : (jlookup (fillKey kvs k v) k).isSome = true := by
  unfold fillKey
  split_ifs with hk
  · exact hk
  · unfold jhasKey at hk
    cases hl : jlookup kvs k with
    | some w => rw [hl] at hk; cases hk rfl
    | none =>
      rw [jlookup_append_right _ _ _ hl]
      simp [jlookup]

/-- A fill on a present key is the identity. -/
theorem fillKey_of_hasKey (kvs : List (String × JVal)) (k : String) (v : JVal)
    (h : jhasKey kvs k = true) : fillKey kvs k v = kvs := by
  unfold fillKey
  rw [if_pos h]

/-- The bounding-box fix leaves lookups of other keys unchanged. -/
theorem jlookup_fixBBox_ne (kvs : List (String × JVal)) (key : String)
    (h : key ≠ "bounding_box") :
    jlookup (fixBBox kvs) key = jlookup kvs key := by
  unfold fixBBox
  split
  · exact jlookup_jupdate_ne _ _ _ _ h
  · rfl
  · cases hl : jlookup kvs key with
    | some w => exact jlookup_append_left _ _ _ _ hl
    | none =>
      rw [jlookup_append_right _ _ _ hl]
      simp only [jlookup]
      rw [if_neg (fun e => h e.symm)]

/-- After the bounding-box fix, the field is present. -/
theorem jlookup_fixBBox_self (kvs : List (String × JVal)) :
    (jlookup (fixBBox kvs) "bounding_box").isSome = true := by
  unfold fixBBox
  split
  · rename_i s heq
    rw [jlookup_jupdate_self _ _ _ _ heq]
    rfl
  · rename_i heq hne
    rw [hne]
    rfl
  · rename_i heq
    rw [jlookup_append_right _ _ _ heq]
    simp [jlookup]

/-- Normalisation does not touch the content field. -/
theorem contentOf_normObj (kvs : List (String × JVal)) :
    contentOf (normObj kvs) = contentOf kvs := by
  unfold contentOf normObj
  rw [jlookup_fixBBox_ne _ _ (by decide), jlookup_fillKey_ne _ _ _ _ (by decide),
    jlookup_fillKey_ne _ _ _ _ (by decide)]

/-- Normalised records carry `page_number`. -/
theorem normObj_hasPage (kvs : List (String × JVal)) :
    jhasKey (normObj kvs) "page_number" = true := by
  unfold jhasKey normObj
  rw [jlookup_fixBBox_ne _ _ (by decide), jlookup_fillKey_ne _ _ _ _ (by decide)]
  exact jlookup_fillKey_self _ _ _

/-- Normalised records carry `document_name`. -/
theorem normObj_hasDoc (kvs : List (String × JVal)) :
    jhasKey (normObj kvs) "document_name" = true := by
  unfold jhasKey normObj
  rw [jlookup_fixBBox_ne _ _ (by decide)]
  exact jlookup_fillKey_self _ _ _

/-- Normalised records carry `bounding_box`. -/
theorem normObj_hasBBox (kvs : List (String × JVal)) :
    (jlookup (normObj kvs) "bounding_box").isSome = true :=
  jlookup_fixBBox_self _

/-- Normalisation is the identity on a record that already carries
`page_number` and `document_name` and whose `bounding_box` is present and
not a string. -/
theorem normObj_stable (kvs : List (String × JVal)) (w : JVal)
    (h1 : jhasKey kvs "page_number" = true)
    (h2 : jhasKey kvs "document_name" = true)
    (h3 : jlookup kvs "bounding_box" = some w)
    (h4 : ∀ s, w ≠ JVal.str s) :
    normObj kvs = kvs := by
  unfold normObj
  rw [fillKey_of_hasKey _ _ _ h1, fillKey_of_hasKey _ _ _ h2]
  unfold fixBBox
  split
  · rename_i s heq
    rw [h3] at heq
    injection heq with h5
    exact absurd h5 (h4 s)
  · rfl
  · rename_i heq
    rw [h3] at heq
    cases heq

/-- Specification-side deduplication against an explicit seen set. -/
def dedupAux : List JVal → List JVal → List JVal
  | [], _ => []
  | x :: xs, seen =>
    if x ∈ seen then dedupAux xs seen else x :: dedupAux xs (x :: seen)

/-- The contents of the records produced by the validate-and-clean loop
are exactly the first-seen deduplication of the incoming truthy contents. -/
theorem dedupGo_map_content (metas : List JVal) :
    ∀ seen, (dedupGo metas seen).map outContent = dedupAux (inContents metas) seen := by
  induction metas with
  | nil => intro seen; rfl
  | cons m rest ih =>
    intro seen
    cases m with
    | obj kvs =>
      by_cases htr : jtruthy (contentOf kvs) = true
      · have hin : inContents (.obj kvs :: rest) = contentOf kvs :: inContents rest := by
          simp [inContents, List.filterMap_cons, htr]
        by_cases hseen : contentOf kvs ∈ seen
        · have : dedupGo (.obj kvs :: rest) seen = dedupGo rest seen := by
            simp only [dedupGo]
            rw [if_pos (Or.inr hseen)]
          rw [this, hin]
          unfold dedupAux
          rw [if_pos hseen]
          exact ih seen
        · have : dedupGo (.obj kvs :: rest) seen =
              .obj (normObj kvs) :: dedupGo rest (contentOf kvs :: seen) := by
            simp only [dedupGo]
            rw [if_neg (by
              rintro (hc | hc)
              · rw [htr] at hc; cases hc
              · exact hseen hc)]
          rw [this, hin]
          unfold dedupAux
          rw [if_neg hseen]
          simp only [List.map_cons]
          rw [outContent, contentOf_normObj, ih (contentOf kvs :: seen)]
      · have hfalse : jtruthy (contentOf kvs) = false := by
          cases h : jtruthy (contentOf kvs)
          · rfl
          · exact absurd h htr
        have hin : inContents (.obj kvs :: rest) = inContents rest := by
          simp [inContents, List.filterMap_cons, hfalse]
        have : dedupGo (.obj kvs :: rest) seen = dedupGo rest seen := by
          simp only [dedupGo]
          rw [if_pos (Or.inl hfalse)]
        rw [this, hin]
        exact ih seen
    | null => exact ih seen
    | bool b => exact ih seen
    | num n => exact ih seen
    | str s => exact ih seen
    | arr l => exact ih seen

/-- Deduplication against a seen set is plain first-seen deduplication of
the input with the seen values deleted. -/
theorem dedupAux_eq_keepFirst (l : List JVal) :
    ∀ seen, dedupAux l seen = dedupKeepFirst (l.filter (fun x => x ∉ seen)) := by
  induction l with
  | nil =>
    intro seen
    simp [dedupAux, dedupKeepFirst]
  | cons x xs ih =>
    intro seen
    unfold dedupAux
    by_cases hseen : x ∈ seen
    · rw [if_pos hseen]
      rw [List.filter_cons, if_neg (by simp [hseen])]
      exact ih seen
    · rw [if_neg hseen]
      rw [List.filter_cons, if_pos (by simp [hseen])]
      have hfil : List.filter (fun y => y ∉ x :: seen) xs =
          List.filter (fun a => decide (a ≠ x) && decide (a ∉ seen)) xs := by
        apply List.filter_congr
        intro y _
        simp [List.mem_cons, not_or]
      rw [dedupKeepFirst, List.filter_filter, ih (x :: seen), hfil]

/-- Part A of C8: the contents of the dedup-and-normalise output are the
first-seen deduplication of the incoming truthy contents. -/
theorem dedupNormalize_contents (metas : List JVal) :
    (dedupNormalize metas).map outContent = dedupKeepFirst (inContents metas) := by
  rw [dedupNormalize, dedupGo_map_content, dedupAux_eq_keepFirst]
  congr 1
  rw [List.filter_eq_self]
  intro a _
  simp

/-- First-seen deduplication only keeps values of the input. -/
theorem mem_dedupKeepFirst :
    ∀ (n : Nat) (l : List JVal), l.length ≤ n →
      ∀ y ∈ dedupKeepFirst l, y ∈ l := by
  intro n
  induction n with
  | zero =>
    intro l hl
    rw [List.length_eq_zero.mp (Nat.le_zero.mp hl)]
    intro y hy
    rw [dedupKeepFirst] at hy
    cases hy
  | succ n ih =>
    intro l hl y hy
    cases l with
    | nil =>
      rw [dedupKeepFirst] at hy
      cases hy
    | cons x xs =>
      rw [dedupKeepFirst] at hy
      rcases List.mem_cons.mp hy with rfl | hy2
      · exact List.mem_cons_self _ _
      · have hlen : (xs.filter (fun y => y ≠ x)).length ≤ n :=
          le_trans (List.length_filter_le _ _)
            (Nat.le_of_succ_le_succ hl)
        exact List.mem_cons_of_mem _
          ((List.mem_filter.mp (ih _ hlen y hy2)).1)

/-- First-seen deduplication has no duplicates. -/
theorem dedupKeepFirst_nodup :
    ∀ (n : Nat) (l : List JVal), l.length ≤ n → (dedupKeepFirst l).Nodup := by
  intro n
  induction n with
  | zero =>
    intro l hl
    rw [List.length_eq_zero.mp (Nat.le_zero.mp hl)]
    rw [dedupKeepFirst]
    exact List.nodup_nil
  | succ n ih =>
    intro l hl
    cases l with
    | nil =>
      rw [dedupKeepFirst]
      exact List.nodup_nil
    | cons x xs =>
      rw [dedupKeepFirst]
      have hlen : (xs.filter (fun y => y ≠ x)).length ≤ n :=
        le_trans (List.length_filter_le _ _) (Nat.le_of_succ_le_succ hl)
      refine List.nodup_cons.mpr ⟨?_, ih _ hlen⟩
      intro hx
      have := (List.mem_filter.mp (mem_dedupKeepFirst n _ hlen x hx)).2
      simp at this

/-- Every record produced by the validate-and-clean loop is a normalised
dict with truthy content. -/
theorem dedupGo_mem_shape (metas : List JVal) :
    ∀ seen m, m ∈ dedupGo metas seen →
      ∃ kvs, m = .obj (normObj kvs) ∧ jtruthy (contentOf kvs) = true := by
  induction metas with
  | nil =>
    intro seen m hm
    cases hm
  | cons m0 rest ih =>
    intro seen m hm
    cases m0 with
    | obj kvs =>
      by_cases hcond : jtruthy (contentOf kvs) = false ∨ contentOf kvs ∈ seen
      · have : dedupGo (.obj kvs :: rest) seen = dedupGo rest seen := by
          simp only [dedupGo]
          rw [if_pos hcond]
        rw [this] at hm
        exact ih seen m hm
      · have : dedupGo (.obj kvs :: rest) seen =
            .obj (normObj kvs) :: dedupGo rest (contentOf kvs :: seen) := by
          simp only [dedupGo]
          rw [if_neg hcond]
        rw [this] at hm
        rcases List.mem_cons.mp hm with rfl | hm2
        · refine ⟨kvs, rfl, ?_⟩
          rcases not_or.mp hcond with ⟨h1, _⟩
          cases h : jtruthy (contentOf kvs)
          · exact absurd h h1
          · rfl
        · exact ih _ m hm2
    | null => exact ih seen m hm
    | bool b => exact ih seen m hm
    | num n => exact ih seen m hm
    | str s => exact ih seen m hm
    | arr l => exact ih seen m hm

/-- The validate-and-clean loop is the identity on a list of already
normalised dicts with truthy, pairwise distinct contents that avoid the
seen set. -/
theorem dedupGo_id (l : List JVal) :
    ∀ seen,
      (∀ m ∈ l, ∃ kvs, m = JVal.obj kvs ∧ jtruthy (contentOf kvs) = true ∧
        normObj kvs = kvs) →
      (l.map outContent).Nodup →
      (∀ m ∈ l, outContent m ∉ seen) →
      dedupGo l seen = l := by
  induction l with
  | nil => intro seen _ _ _; rfl
  | cons m rest ih =>
    intro seen hshape hnodup hseen
    obtain ⟨kvs, hm, htr, hstable⟩ := hshape m (List.mem_cons_self _ _)
    subst hm
    have hout : outContent (JVal.obj kvs) = contentOf kvs := rfl
    have hnotseen : contentOf kvs ∉ seen := by
      have := hseen _ (List.mem_cons_self _ _)
      rwa [hout] at this
    have hstep : dedupGo (JVal.obj kvs :: rest) seen =
        JVal.obj (normObj kvs) :: dedupGo rest (contentOf kvs :: seen) := by
      simp only [dedupGo]
      rw [if_neg (by
        rintro (hc | hc)
        · rw [htr] at hc; cases hc
        · exact hnotseen hc)]
    rw [hstep, hstable]
    congr 1
    rw [List.map_cons] at hnodup
    have hnodup2 := List.nodup_cons.mp hnodup
    refine ih (contentOf kvs :: seen) ?_ hnodup2.2 ?_
    · intro m2 hm2
      exact hshape m2 (List.mem_cons_of_mem _ hm2)
    · intro m2 hm2
      rw [List.mem_cons, not_or]
      constructor
      · intro he
        apply hnodup2.1
        rw [hout, ← he]
        exact List.mem_map_of_mem outContent hm2
      · exact hseen m2 (List.mem_cons_of_mem _ hm2)

/-- Part B of C8: the dedup-and-normalise pass is idempotent provided no
record of its output carries a string-valued `bounding_box`. -/
theorem dedupNormalize_idempotent_cond (metas : List JVal)
    (H : ∀ m ∈ dedupNormalize metas, bboxNotString m = true) :
    dedupNormalize (dedupNormalize metas) = dedupNormalize metas := by
  refine dedupGo_id (dedupNormalize metas) [] ?_ ?_ ?_
  · intro m hm
    obtain ⟨kvs, rfl, htr⟩ := dedupGo_mem_shape metas [] m hm
    refine ⟨normObj kvs, rfl, ?_, ?_⟩
    · rw [contentOf_normObj]
      exact htr
    · obtain ⟨w, hw⟩ := Option.isSome_iff_exists.mp (normObj_hasBBox kvs)
      refine normObj_stable _ w (normObj_hasPage kvs) (normObj_hasDoc kvs) hw ?_
      intro s hs
      have hb := H _ hm
      simp only [bboxNotString] at hb
      rw [hw, hs] at hb
      simp at hb
  · rw [dedupNormalize_contents]
    exact dedupKeepFirst_nodup (inContents metas).length _ le_rfl
  · intro m _
    exact List.not_mem_nil _

/-- C8 (amended): deduplication keys on exact `original_content` equality —
the contents of the normalised output are the first-seen deduplication of
the incoming truthy contents (one surviving record per distinct non-empty
content, in first-seen order), and `retrieve_large_context_async` applies
exactly this pass to its candidates; the pass is idempotent on every input
whose output carries no string-valued `bounding_box` (re-applying it to
such an output changes nothing).  Unconditional idempotence fails: a
`bounding_box` that decodes to a JSON string is re-parsed by a second
application (see the counterexample). -/
theorem dedup_first_seen_order (metas : List JVal) :
    ((dedupNormalize metas).map outContent = dedupKeepFirst (inContents metas)) ∧
    ((∀ m ∈ dedupNormalize metas, bboxNotString m = true) →
      dedupNormalize (dedupNormalize metas) = dedupNormalize metas) ∧
    (∀ (sel : String) (r : JVal),
      selectionTooShort sel = false → embedResultOk r = true →
      metas.isEmpty = false →
      retrieve_large_context_async sel (some r) (some metas) =
        dedupNormalize metas) := by
  refine ⟨dedupNormalize_contents metas, dedupNormalize_idempotent_cond metas, ?_⟩
  intro sel r hsel hemb hm
  unfold retrieve_large_context_async
  simp [hsel, hemb, hm]

/-- Witness for C8 (amended) at a two-record candidate list with duplicate
content. -/
theorem dedup_first_seen_order_witness :
    ((dedupNormalize [JVal.obj [("original_content", .str "x")],
        .obj [("original_content", .str "x")]]).map outContent =
      dedupKeepFirst (inContents [JVal.obj [("original_content", .str "x")],
        .obj [("original_content", .str "x")]])) ∧
    dedupNormalize (dedupNormalize [JVal.obj [("original_content", .str "x")],
        .obj [("original_content", .str "x")]]) =
      dedupNormalize [JVal.obj [("original_content", .str "x")],
        .obj [("original_content", .str "x")]] ∧
    retrieve_large_context_async "abc" (some (.obj [("embedding", .arr [.num 1])]))
        (some [JVal.obj [("original_content", .str "x")],
          .obj [("original_content", .str "x")]]) =
      dedupNormalize [JVal.obj [("original_content", .str "x")],
        .obj [("original_content", .str "x")]] :=
  ⟨(dedup_first_seen_order _).1,
   (dedup_first_seen_order _).2.1 (by decide),
   (dedup_first_seen_order _).2.2 "abc" _ (by decide) (by decide) rfl⟩

/-- Counterexample to C8 as stated: the pass is not idempotent.  A record
whose `bounding_box` is the JSON-encoded string `"y"` has it decoded to
the string `y` by the first pass; the second pass re-parses that string,
fails, and substitutes the empty object — so applying the pass to its own
output changes it. -/
theorem dedup_normalize_not_idempotent :
    dedupNormalize (dedupNormalize [JVal.obj [("original_content", .str "x"),
        ("bounding_box", .str "\"y\"")]]) ≠
      dedupNormalize [JVal.obj [("original_content", .str "x"),
        ("bounding_box", .str "\"y\"")]] := by decide
